import Mathlib

/-!
Verification development for the road-geometry core of the repository
(file `pyodrx/geometry.py`): segment evaluation (`Line`, `Arc`, `Spiral`,
`ParamPoly3`), the Euler-spiral solver, and the `PlanView` orchestrator
with its `adjust_geometires` fold.

Modelling conventions:
* Python floats are modelled by `ℝ`; `numpy` trigonometry by `Real.cos`,
  `Real.sin`, and `np.arctan2 (y, x)` by `Complex.arg ⟨x, y⟩` (same
  branch-cut convention, values in `(-π, π]`).
* `scipy.integrate.quad f a b` is modelled by the exact interval integral
  (its returned value component), and `scipy.special.fresnel` by the
  standard normalized Fresnel integrals.
* Fields that Python initializes to `None` are `Option ℝ`; Python
  truthiness of such a field (`if self.length:`) is `truthyO`.
* A raised Python exception is an `Except PyErr` error value; construction
  (`__init__`) and evaluation (`get_end_data`) return `Except`.
* `Arc.get_end_data` and `ParamPoly3.get_end_data` mutate their own
  object in Python; evaluation therefore returns the updated segment
  state next to the numeric result, and `PlanView.adjust_geometires`
  threads that state exactly as the aliased Python objects would.
-/

open Classical

noncomputable section

/-- Model of a raised Python exception kind. -/
inductive PyErr
  | valueError
  | typeError
  | indexError
  | zeroDivisionError
  deriving DecidableEq

/-- The `prange` attribute of a `ParamPoly3` (`"normalized"` or `"arcLength"`). -/
inductive PRange
  | normalized
  | arcLength
  deriving DecidableEq

/-- Tagged union of the four segment classes of `geometry.py`, holding
exactly the numeric attributes those Python objects carry.  `Arc.length`,
`Arc.angle` and `ParamPoly3.length` may be `None` in Python, hence `Option ℝ`. -/
inductive GeomT
  | line (length : ℝ)
  | arc (curvature : ℝ) (length angle : Option ℝ)
  | spiral (curvstart curvend length : ℝ)
  | parampoly3 (au bu cu du av bv cv dv : ℝ) (prange : PRange) (length : Option ℝ)

instance : Inhabited GeomT := ⟨GeomT.line 0⟩

/-- Python truthiness of an optional float: `None` and `0.0` are falsy. -/
def truthyO : Option ℝ → Prop
  | none => False
  | some v => v ≠ 0

@[simp] theorem truthyO_none : truthyO none ↔ False := Iff.rfl

@[simp] theorem truthyO_some (v : ℝ) : truthyO (some v) ↔ v ≠ 0 := Iff.rfl

/-- Model of `np.arctan2 y x`: defined as the argument of the complex number `x + y·i`
(range `(-π, π]`, matching numpy's convention). -/
def atan2 (y x : ℝ) : ℝ := Complex.arg ⟨x, y⟩

/-- Normalized Fresnel sine integral, the first component returned by
`scipy.special.fresnel`. -/
def fresnelS (t : ℝ) : ℝ := ∫ u in (0:ℝ)..t, Real.sin (Real.pi * u ^ 2 / 2)

/-- Normalized Fresnel cosine integral, the second component returned by
`scipy.special.fresnel`. -/
def fresnelC (t : ℝ) : ℝ := ∫ u in (0:ℝ)..t, Real.cos (Real.pi * u ^ 2 / 2)

/-- Value component of `scipy.integrate.quad(f, a, b)`, modelled as the exact
definite integral. -/
def quadVal (f : ℝ → ℝ) (a b : ℝ) : ℝ := ∫ p in a..b, f p

/-- Source `EulerSpiral.createFromLengthAndCurvature`: the curvature rate `gamma`. -/
def EulerSpiral.createFromLengthAndCurvature (length curvStart curvEnd : ℝ) : ℝ :=
  1 * (curvEnd - curvStart) / length

/-- Source `EulerSpiral.calc(s, x0, y0, kappa0, theta0)` for a spiral with curvature
rate `gamma`: returns `(Cs.real, Cs.imag, theta)`. -/
def EulerSpiral.calc (gamma s x0 y0 kappa0 theta0 : ℝ) : ℝ × ℝ × ℝ :=
  let C0 : ℂ := ⟨x0, y0⟩
  let Cs : ℂ :=
    if gamma = 0 ∧ kappa0 = 0 then
      C0 + (s : ℂ) * Complex.exp ((theta0 : ℂ) * Complex.I)
    else if gamma = 0 ∧ kappa0 ≠ 0 then
      C0 + Complex.exp ((theta0 : ℂ) * Complex.I) / (kappa0 : ℂ) *
        ((Real.sin (kappa0 * s) : ℂ) + (1 - (Real.cos (kappa0 * s) : ℂ)) * Complex.I)
    else
      let Sa := fresnelS ((kappa0 + gamma * s) / Real.sqrt (Real.pi * |gamma|))
      let Ca := fresnelC ((kappa0 + gamma * s) / Real.sqrt (Real.pi * |gamma|))
      let Sb := fresnelS (kappa0 / Real.sqrt (Real.pi * |gamma|))
      let Cb := fresnelC (kappa0 / Real.sqrt (Real.pi * |gamma|))
      let Cs1 : ℂ := (Real.sqrt (Real.pi / |gamma|) : ℂ) *
        Complex.exp ((theta0 - kappa0 ^ 2 / 2 / gamma : ℝ) * Complex.I)
      let Cs2 : ℂ := ((Real.sign gamma * (Ca - Cb) : ℝ) : ℂ) +
        (Sa : ℂ) * Complex.I - (Sb : ℂ) * Complex.I
      C0 + Cs1 * Cs2
  let theta := gamma * s ^ 2 / 2 + kappa0 * s + theta0
  (Cs.re, Cs.im, theta)

/-- Evaluation result of a segment: `(new_x, new_y, new_h, length)` together
with the (possibly mutated) segment object state. -/
abbrev EvalRes := (ℝ × ℝ × ℝ × Option ℝ) × GeomT

/-- Source `Line.get_end_data(x, y, h)`. -/
def Line.get_end_data (length x y h : ℝ) : Except PyErr EvalRes :=
  .ok ((length * Real.cos h + x, length * Real.sin h + y, h, some length), .line length)

/-- The angle `phi_0` computed by `Arc.get_end_data` (angle from the circle
center to the start point). -/
def Arc.phi_0 (curvature h : ℝ) : ℝ :=
  if curvature < 0 then h + Real.pi / 2 else h - Real.pi / 2

/-- The circle center `(x_0, y_0)` computed by `Arc.get_end_data`. -/
def Arc.center (curvature x y h : ℝ) : ℝ × ℝ :=
  let radius := 1 / |curvature|
  (x - Real.cos (Arc.phi_0 curvature h) * radius,
   y - Real.sin (Arc.phi_0 curvature h) * radius)

/-- Source `Arc.get_end_data(x, y, h)`.  Mirrors the source's in-place updates of
`self.angle` and `self.length`, and the `TypeError` Python raises at
`new_ang = self.angle + phi_0` when `self.angle` is still `None`. -/
def Arc.get_end_data (curvature : ℝ) (length angle : Option ℝ) (x y h : ℝ) :
    Except PyErr EvalRes :=
  let radius := 1 / |curvature|
  let phi_0 := Arc.phi_0 curvature h
  let x_0 := (Arc.center curvature x y h).1
  let y_0 := (Arc.center curvature x y h).2
  let angle1 : Option ℝ := if truthyO length then some (length.getD 0 * curvature) else angle
  match angle1 with
  | none => .error .typeError
  | some A =>
    let new_ang := A + phi_0
    let length2 : Option ℝ := if A ≠ 0 then some |radius * A| else length
    let new_h := h + A
    let new_x := Real.cos new_ang * radius + x_0
    let new_y := Real.sin new_ang * radius + y_0
    .ok ((new_x, new_y, new_h, length2), .arc curvature length2 (some A))

/-- Source `Spiral.get_end_data(x, y, h)`; a zero length makes the `gamma`
division raise `ZeroDivisionError`. -/
def Spiral.get_end_data (curvstart curvend length x y h : ℝ) : Except PyErr EvalRes :=
  if length = 0 then .error .zeroDivisionError
  else
    let gamma := EulerSpiral.createFromLengthAndCurvature length curvstart curvend
    let r := EulerSpiral.calc gamma length x y curvstart h
    .ok ((r.1, r.2.1, r.2.2, some length), .spiral curvstart curvend length)

/-- The integrand of `ParamPoly3._integrand` (local speed, already expanded
in the source). -/
def ParamPoly3.integrand (bu cu du bv cv dv p : ℝ) : ℝ :=
  Real.sqrt ((bu ^ 2 + bv ^ 2) + 4 * (bu * cu + bv * cv) * p +
    2 * (3 * bu * du + 2 * cu ^ 2 + 3 * bv * dv + 2 * cv ^ 2) * p ^ 2 +
    12 * (cu * du + cv * dv) * p ^ 3 + 9 * (du ^ 2 + dv ^ 2) * p ^ 4)

/-- Source `ParamPoly3.get_end_data(x, y, h)`.  In normalized mode the length is
recomputed by quadrature and written back to `self.length`; in arcLength
mode a `None` length makes `au + bu*None` raise `TypeError`. -/
def ParamPoly3.get_end_data (au bu cu du av bv cv dv : ℝ) (prange : PRange)
    (length : Option ℝ) (x y h : ℝ) : Except PyErr EvalRes :=
  match prange with
  | .normalized =>
    let p : ℝ := 1
    let L := quadVal (ParamPoly3.integrand bu cu du bv cv dv) 0 1
    let newu := au + bu * p + cu * p ^ 2 + du * p ^ 3
    let newv := av + bv * p + cv * p ^ 2 + dv * p ^ 3
    .ok ((x + newu * Real.cos h - Real.sin h * newv,
          y + newu * Real.sin h + Real.cos h * newv,
          h + atan2 (bv + cv * p + dv * p ^ 2) (bu + cu * p + du * p ^ 2), some L),
         .parampoly3 au bu cu du av bv cv dv .normalized (some L))
  | .arcLength =>
    match length with
    | none => .error .typeError
    | some Lgiven =>
      let p : ℝ := Lgiven
      let newu := au + bu * p + cu * p ^ 2 + du * p ^ 3
      let newv := av + bv * p + cv * p ^ 2 + dv * p ^ 3
      .ok ((x + newu * Real.cos h - Real.sin h * newv,
            y + newu * Real.sin h + Real.cos h * newv,
            h + atan2 (bv + cv * p + dv * p ^ 2) (bu + cu * p + du * p ^ 2), some Lgiven),
           .parampoly3 au bu cu du av bv cv dv .arcLength (some Lgiven))

/-- Dynamic dispatch of `geom_type.get_end_data(x, y, h)`. -/
def GeomT.get_end_data : GeomT → ℝ → ℝ → ℝ → Except PyErr EvalRes
  | .line L, x, y, h => Line.get_end_data L x y h
  | .arc k l a, x, y, h => Arc.get_end_data k l a x y h
  | .spiral k1 k2 L, x, y, h => Spiral.get_end_data k1 k2 L x y h
  | .parampoly3 au bu cu du av bv cv dv pr len, x, y, h =>
      ParamPoly3.get_end_data au bu cu du av bv cv dv pr len x y h

/-- Source `Line.__init__`: never raises. -/
def Line.init (length : ℝ) : Except PyErr GeomT := .ok (.line length)

/-- Source `Arc.__init__`: raises `ValueError` when neither or both of
`length`/`angle` are given, or when `curvature == 0`. -/
def Arc.init (curvature : ℝ) (length angle : Option ℝ) : Except PyErr GeomT :=
  if length = none ∧ angle = none then .error .valueError
  else if length ≠ none ∧ angle ≠ none then .error .valueError
  else if curvature = 0 then .error .valueError
  else .ok (.arc curvature length angle)

/-- Source `Spiral.__init__`: never raises. -/
def Spiral.init (curvstart curvend length : ℝ) : Except PyErr GeomT :=
  .ok (.spiral curvstart curvend length)

/-- Source `ParamPoly3.__init__`: raises `ValueError` when `prange == 'arcLength'`
and no length was provided. -/
def ParamPoly3.init (au bu cu du av bv cv dv : ℝ) (prange : PRange)
    (length : Option ℝ) : Except PyErr GeomT :=
  if prange = .arcLength ∧ length = none then .error .valueError
  else .ok (.parampoly3 au bu cu du av bv cv dv prange length)

/-- The `_Geometry` wrapper: start `s`, start pose, the (aliased, possibly
mutated) segment object, and the `length` cached by `__init__`. -/
structure Geometry where
  s : ℝ
  x : ℝ
  y : ℝ
  heading : ℝ
  geom_type : GeomT
  length : Option ℝ

instance : Inhabited Geometry := ⟨⟨0, 0, 0, 0, default, none⟩⟩

/-- Source `_Geometry.get_end_data()`. -/
def Geometry.get_end_data (g : Geometry) : Except PyErr EvalRes :=
  GeomT.get_end_data g.geom_type g.x g.y g.heading

/-- The `PlanView` state.  The Python attributes `_raw_geometries`,
`_adjusted_geometries` and `_overridden_headings` are modelled without the
leading underscore. -/
structure PlanView where
  present_x : ℝ
  present_y : ℝ
  present_h : ℝ
  present_s : ℝ
  raw_geometries : List GeomT
  adjusted_geometries : List Geometry
  overridden_headings : List ℝ

/-- Source `PlanView.__init__` (the constructor ignores its arguments and zeroes
everything). -/
def PlanView.init : PlanView := ⟨0, 0, 0, 0, [], [], []⟩

/-- Source `PlanView.add_geometry(geom, heading)`: the override is recorded only
when `heading` is truthy. -/
def PlanView.add_geometry (pv : PlanView) (geom : GeomT) (heading : Option ℝ) : PlanView :=
  { pv with
    overridden_headings :=
      if truthyO heading then pv.overridden_headings ++ [heading.getD 0]
      else pv.overridden_headings,
    raw_geometries := pv.raw_geometries ++ [geom] }

/-- Source `PlanView.set_start_point(x_start, y_start, h_start)`. -/
def PlanView.set_start_point (pv : PlanView) (x_start y_start h_start : ℝ) : PlanView :=
  { pv with present_x := x_start, present_y := y_start, present_h := h_start }

/-- The body of one `adjust_geometires` loop iteration after the optional
heading override, with the exact statement order of the source: `_Geometry`
construction (first `get_end_data` call, caching `length`), the second
`get_end_data` call updating the present pose, `present_s += length`, then
the append.  On an exception the partially mutated state is returned with
the error. -/
def PlanView.adjustCore (pv : PlanView) (i : ℕ) : PlanView × Option PyErr :=
  match pv.raw_geometries[i]? with
  | none => (pv, some .indexError)
  | some g =>
    match GeomT.get_end_data g pv.present_x pv.present_y pv.present_h with
    | .error e => (pv, some e)
    | .ok ((_, _, _, len1), g1) =>
      match GeomT.get_end_data g1 pv.present_x pv.present_y pv.present_h with
      | .error e => ({ pv with raw_geometries := pv.raw_geometries.set i g1 }, some e)
      | .ok ((nx, ny, nh, len2), g2) =>
        let newgeom : Geometry :=
          ⟨pv.present_s, pv.present_x, pv.present_y, pv.present_h, g2, len1⟩
        let q2 := { pv with present_x := nx, present_y := ny, present_h := nh,
                            raw_geometries := pv.raw_geometries.set i g2 }
        match len2 with
        | none => (q2, some .typeError)
        | some L =>
          ({ q2 with present_s := pv.present_s + L,
                     adjusted_geometries := pv.adjusted_geometries ++ [newgeom] }, none)

/-- One iteration of the `adjust_geometires` loop at index `i`: the override
lookup (which can raise `IndexError`), then the loop body. -/
def PlanView.adjustStep (pv : PlanView) (i : ℕ) : PlanView × Option PyErr :=
  if 0 < pv.overridden_headings.length then
    match pv.overridden_headings[i]? with
    | some hd => PlanView.adjustCore { pv with present_h := hd } i
    | none => (pv, some .indexError)
  else PlanView.adjustCore pv i

/-- Runs loop iterations `0, …, n-1` of `adjust_geometires`, stopping at the
first exception. -/
def PlanView.adjustUpTo (pv : PlanView) : ℕ → PlanView × Option PyErr
  | 0 => (pv, none)
  | n + 1 =>
    match PlanView.adjustUpTo pv n with
    | (q, some e) => (q, some e)
    | (q, none) => PlanView.adjustStep q n

/-- Source `PlanView.adjust_geometires()` (sic): the full fold over the raw
geometry list. -/
def PlanView.adjust_geometires (pv : PlanView) : PlanView × Option PyErr :=
  PlanView.adjustUpTo pv pv.raw_geometries.length

/-- Source `PlanView.get_total_length()`. -/
def PlanView.get_total_length (pv : PlanView) : ℝ := pv.present_s

/-- The effective sweep angle used by `Arc.get_end_data`: the derived
`length * curvature` when `self.length` is truthy, otherwise `self.angle`. -/
def Arc.effAngle (curvature : ℝ) (length angle : Option ℝ) : Option ℝ :=
  if truthyO length then some (length.getD 0 * curvature) else angle

/-- Closed form of `Arc.get_end_data` in terms of the effective angle. -/
theorem Arc.get_end_data_eq (k : ℝ) (l a : Option ℝ) (x y h : ℝ) :
    Arc.get_end_data k l a x y h =
      match Arc.effAngle k l a with
      | none => .error .typeError
      | some A =>
        .ok ((Real.cos (A + Arc.phi_0 k h) * (1 / |k|) + (Arc.center k x y h).1,
              Real.sin (A + Arc.phi_0 k h) * (1 / |k|) + (Arc.center k x y h).2,
              h + A, if A ≠ 0 then some |1 / |k| * A| else l),
             .arc k (if A ≠ 0 then some |1 / |k| * A| else l) (some A)) := rfl

theorem Arc.effAngle_stable {k : ℝ} {l a : Option ℝ} {A : ℝ}
    (hA : Arc.effAngle k l a = some A) : Arc.effAngle k l (some A) = some A := by
  by_cases hl : truthyO l
  · simpa [Arc.effAngle, hl] using hA
  · simp [Arc.effAngle, hl]

theorem Arc.effAngle_not_truthy {k : ℝ} {l : Option ℝ} {a : Option ℝ}
    (hl : ¬ truthyO l) : Arc.effAngle k l a = a := by
  simp [Arc.effAngle, hl]

theorem Arc.effAngle_truthy {k L : ℝ} (hL : L ≠ 0) (a : Option ℝ) :
    Arc.effAngle k (some L) a = some (L * k) := by
  simp [Arc.effAngle, hL]

theorem abs_radius_cancel {k : ℝ} (M : ℝ) (hk : k ≠ 0) (hM : 0 ≤ M) :
    |1 / |k| * (M * k)| = M := by
  rw [abs_mul, abs_mul, abs_div, abs_abs, abs_one, abs_of_nonneg hM]
  have h1 : |k| ≠ 0 := abs_ne_zero.mpr hk
  field_simp

@[simp] theorem GeomT.eval_line (L x y h : ℝ) :
    GeomT.get_end_data (.line L) x y h = Line.get_end_data L x y h := rfl

@[simp] theorem GeomT.eval_arc (k : ℝ) (l a : Option ℝ) (x y h : ℝ) :
    GeomT.get_end_data (.arc k l a) x y h = Arc.get_end_data k l a x y h := rfl

@[simp] theorem GeomT.eval_spiral (k1 k2 L x y h : ℝ) :
    GeomT.get_end_data (.spiral k1 k2 L) x y h = Spiral.get_end_data k1 k2 L x y h := rfl

@[simp] theorem GeomT.eval_parampoly3 (au bu cu du av bv cv dv : ℝ) (pr : PRange)
    (len : Option ℝ) (x y h : ℝ) :
    GeomT.get_end_data (.parampoly3 au bu cu du av bv cv dv pr len) x y h =
      ParamPoly3.get_end_data au bu cu du av bv cv dv pr len x y h := rfl

theorem Arc.eval_of_eff {k : ℝ} {l a : Option ℝ} {A : ℝ} (x y h : ℝ)
    (hA : Arc.effAngle k l a = some A) :
    Arc.get_end_data k l a x y h =
      .ok ((Real.cos (A + Arc.phi_0 k h) * (1 / |k|) + (Arc.center k x y h).1,
            Real.sin (A + Arc.phi_0 k h) * (1 / |k|) + (Arc.center k x y h).2,
            h + A, if A ≠ 0 then some |1 / |k| * A| else l),
           .arc k (if A ≠ 0 then some |1 / |k| * A| else l) (some A)) := by
  rw [Arc.get_end_data_eq, hA]

theorem Arc.eval_of_eff_none {k : ℝ} {l a : Option ℝ} (x y h : ℝ)
    (hA : Arc.effAngle k l a = none) :
    Arc.get_end_data k l a x y h = .error .typeError := by
  rw [Arc.get_end_data_eq, hA]

/-- In normalized mode the stored length is never read, so evaluation does not
depend on it. -/
theorem ParamPoly3.normalized_len_irrel (au bu cu du av bv cv dv : ℝ)
    (len len' : Option ℝ) (x y h : ℝ) :
    ParamPoly3.get_end_data au bu cu du av bv cv dv .normalized len x y h =
      ParamPoly3.get_end_data au bu cu du av bv cv dv .normalized len' x y h := rfl

/-- After one successful `get_end_data` call, a second call succeeds, returns
the same length, and the state it leaves behind is a fixed point: a third
call reproduces the second call's result exactly. -/
theorem GeomT.eval_eval {g : GeomT} {x y h : ℝ} {r1 : ℝ × ℝ × ℝ × Option ℝ} {g1 : GeomT}
    (h1 : GeomT.get_end_data g x y h = .ok (r1, g1)) :
    ∃ r2 g2, GeomT.get_end_data g1 x y h = .ok (r2, g2) ∧
      r2.2.2.2 = r1.2.2.2 ∧ GeomT.get_end_data g2 x y h = .ok (r2, g2) := by
  cases g with
  | line L =>
    have hg : g1 = .line L := by
      have h1' := h1
      simp only [GeomT.get_end_data, Line.get_end_data, Except.ok.injEq, Prod.mk.injEq] at h1'
      exact h1'.2.symm
    subst hg
    exact ⟨r1, _, h1, rfl, h1⟩
  | spiral k1 k2 L =>
    by_cases hL : L = 0
    · simp [GeomT.get_end_data, Spiral.get_end_data, hL] at h1
    · have hg : g1 = .spiral k1 k2 L := by
        have h1' := h1
        simp only [GeomT.get_end_data, Spiral.get_end_data, if_neg hL, Except.ok.injEq,
          Prod.mk.injEq] at h1'
        exact h1'.2.symm
      subst hg
      exact ⟨r1, _, h1, rfl, h1⟩
  | parampoly3 au bu cu du av bv cv dv pr len =>
    cases pr with
    | normalized =>
      have h1' := h1
      simp only [GeomT.get_end_data, ParamPoly3.get_end_data, Except.ok.injEq,
        Prod.mk.injEq] at h1'
      obtain ⟨h1a, h1b⟩ := h1'
      subst h1b
      exact ⟨r1, _, h1, rfl, h1⟩
    | arcLength =>
      cases len with
      | none => simp [GeomT.get_end_data, ParamPoly3.get_end_data] at h1
      | some Lg =>
        have hg : g1 = .parampoly3 au bu cu du av bv cv dv .arcLength (some Lg) := by
          have h1' := h1
          simp only [GeomT.get_end_data, ParamPoly3.get_end_data, Except.ok.injEq,
            Prod.mk.injEq] at h1'
          exact h1'.2.symm
        subst hg
        exact ⟨r1, _, h1, rfl, h1⟩
  | arc k l a =>
    rw [GeomT.eval_arc] at h1
    cases hA : Arc.effAngle k l a with
    | none =>
      rw [Arc.eval_of_eff_none x y h hA] at h1
      exact absurd h1 (by simp)
    | some A =>
      rw [Arc.eval_of_eff x y h hA] at h1
      simp only [Except.ok.injEq, Prod.mk.injEq] at h1
      obtain ⟨h1a, h1b⟩ := h1
      subst h1b
      by_cases hA0 : A = 0
      · have hif : (if A ≠ 0 then some |1 / |k| * A| else l) = l := by simp [hA0]
        rw [hif]
        have heff : Arc.effAngle k l (some A) = some A := Arc.effAngle_stable hA
        refine ⟨(Real.cos (A + Arc.phi_0 k h) * (1 / |k|) + (Arc.center k x y h).1,
                 Real.sin (A + Arc.phi_0 k h) * (1 / |k|) + (Arc.center k x y h).2,
                 h + A, l), .arc k l (some A), ?_, ?_, ?_⟩
        · rw [GeomT.eval_arc, Arc.eval_of_eff x y h heff, hif]
        · rw [← h1a]
          simp [hA0]
        · rw [GeomT.eval_arc, Arc.eval_of_eff x y h heff, hif]
      · have hif : (if A ≠ 0 then some |1 / |k| * A| else l) = some |1 / |k| * A| := by
          simp [hA0]
        rw [hif]
        by_cases hk : k = 0
        · have hr0 : |1 / |k| * A| = 0 := by subst hk; simp
          have heff : Arc.effAngle k (some |1 / |k| * A|) (some A) = some A :=
            Arc.effAngle_not_truthy (fun ht => ht hr0)
          refine ⟨(Real.cos (A + Arc.phi_0 k h) * (1 / |k|) + (Arc.center k x y h).1,
                   Real.sin (A + Arc.phi_0 k h) * (1 / |k|) + (Arc.center k x y h).2,
                   h + A, some |1 / |k| * A|), .arc k (some |1 / |k| * A|) (some A),
                  ?_, ?_, ?_⟩
          · rw [GeomT.eval_arc, Arc.eval_of_eff x y h heff, if_pos hA0]
          · rw [← h1a]
            simp [hA0]
          · rw [GeomT.eval_arc, Arc.eval_of_eff x y h heff, if_pos hA0]
        · have hMpos : |1 / |k| * A| ≠ 0 := by
            have h0 : (1 : ℝ) / |k| ≠ 0 := one_div_ne_zero (abs_ne_zero.mpr hk)
            exact abs_ne_zero.mpr (mul_ne_zero h0 hA0)
          have heff : Arc.effAngle k (some |1 / |k| * A|) (some A) =
              some (|1 / |k| * A| * k) := by
            rw [Arc.effAngle_truthy hMpos]
          have hA2 : |1 / |k| * A| * k ≠ 0 := mul_ne_zero hMpos hk
          have hcan : |1 / |k| * (|1 / |k| * A| * k)| = |1 / |k| * A| :=
            abs_radius_cancel _ hk (abs_nonneg _)
          have heff2 : Arc.effAngle k (some |1 / |k| * A|) (some (|1 / |k| * A| * k)) =
              some (|1 / |k| * A| * k) := by
            rw [Arc.effAngle_truthy hMpos]
          refine ⟨(Real.cos (|1 / |k| * A| * k + Arc.phi_0 k h) * (1 / |k|) +
                    (Arc.center k x y h).1,
                   Real.sin (|1 / |k| * A| * k + Arc.phi_0 k h) * (1 / |k|) +
                    (Arc.center k x y h).2,
                   h + |1 / |k| * A| * k, some |1 / |k| * A|),
                  .arc k (some |1 / |k| * A|) (some (|1 / |k| * A| * k)), ?_, ?_, ?_⟩
          · rw [GeomT.eval_arc, Arc.eval_of_eff x y h heff, if_pos hA2, hcan]
          · rw [← h1a]
            simp [hA0]
          · rw [GeomT.eval_arc, Arc.eval_of_eff x y h heff2, if_pos hA2, hcan]

/-- The arc-length chain: each geometry in the list starts at the running `s`,
carries a real (non-`None`) length, and the running `s` advances by it. -/
def sChain : ℝ → List Geometry → ℝ → Prop
  | s, [], sfin => sfin = s
  | s, g :: t, sfin => g.s = s ∧ ∃ L, g.length = some L ∧ sChain (s + L) t sfin

/-- The pose chain: each geometry starts at the running pose, its evaluation
succeeds without touching its stored segment state, and the running pose
advances to its end pose. -/
def poseChain : ℝ → ℝ → ℝ → List Geometry → ℝ × ℝ × ℝ → Prop
  | x, y, hd, [], fin => fin = (x, y, hd)
  | x, y, hd, g :: t, fin =>
      g.x = x ∧ g.y = y ∧ g.heading = hd ∧
      ∃ nx ny nh L, Geometry.get_end_data g = .ok ((nx, ny, nh, some L), g.geom_type) ∧
        poseChain nx ny nh t fin

theorem sChain_append {s sfin : ℝ} {t : List Geometry} (h : sChain s t sfin)
    {g : Geometry} {L : ℝ} (hg : g.s = sfin) (hL : g.length = some L) :
    sChain s (t ++ [g]) (sfin + L) := by
  induction t generalizing s with
  | nil =>
    simp only [sChain] at h
    subst h
    exact ⟨hg, L, hL, rfl⟩
  | cons g0 t ih =>
    obtain ⟨h0, L0, hL0, hrest⟩ := h
    exact ⟨h0, L0, hL0, ih hrest⟩

theorem poseChain_append {x y hd : ℝ} {fin : ℝ × ℝ × ℝ} {t : List Geometry}
    (h : poseChain x y hd t fin) {g : Geometry} {nx ny nh : ℝ} {L : ℝ}
    (hx : g.x = fin.1) (hy : g.y = fin.2.1) (hh : g.heading = fin.2.2)
    (he : Geometry.get_end_data g = .ok ((nx, ny, nh, some L), g.geom_type)) :
    poseChain x y hd (t ++ [g]) (nx, ny, nh) := by
  induction t generalizing x y hd with
  | nil =>
    simp only [poseChain] at h
    subst h
    exact ⟨hx, hy, hh, nx, ny, nh, L, he, rfl⟩
  | cons g0 t ih =>
    obtain ⟨h0x, h0y, h0h, mx, my, mh, mL, h0e, hrest⟩ := h
    exact ⟨h0x, h0y, h0h, mx, my, mh, mL, h0e, ih hrest⟩

/-- Structure of one successful loop-body execution: exactly one geometry is
appended; it starts at the old present pose and `s`; its cached length is the
real length; the present pose moves to its end pose; and the stored segment
state is a fixed point of evaluation. -/
theorem PlanView.adjustCore_ok {pv q : PlanView} {i : ℕ}
    (h : PlanView.adjustCore pv i = (q, none)) :
    ∃ g L,
      q.overridden_headings = pv.overridden_headings ∧
      q.raw_geometries.length = pv.raw_geometries.length ∧
      q.present_s = pv.present_s + L ∧
      q.adjusted_geometries = pv.adjusted_geometries ++ [g] ∧
      g.s = pv.present_s ∧ g.x = pv.present_x ∧ g.y = pv.present_y ∧
      g.heading = pv.present_h ∧ g.length = some L ∧
      Geometry.get_end_data g =
        .ok ((q.present_x, q.present_y, q.present_h, some L), g.geom_type) := by
  unfold PlanView.adjustCore at h
  split at h
  · simp at h
  rename_i g0 hraw
  split at h
  · simp at h
  rename_i x1 y1 hh1 len1 g1 h1
  split at h
  · simp at h
  rename_i nx ny nh len2 g2 h2
  split at h
  · simp at h
  rename_i L
  rw [Prod.mk.injEq] at h
  obtain ⟨hq, -⟩ := h
  subst hq
  obtain ⟨r2', g2', h2'f, hlen, hfix⟩ := GeomT.eval_eval h1
  rw [h2] at h2'f
  simp only [Except.ok.injEq, Prod.mk.injEq] at h2'f
  obtain ⟨hr2, hg2⟩ := h2'f
  subst hg2
  have hlen' : r2'.2.2.2 = len1 := hlen
  have hlen1 : len1 = some L := by rw [← hlen', ← hr2]
  have hfix' : GeomT.get_end_data g2 pv.present_x pv.present_y pv.present_h =
      .ok ((nx, ny, nh, some L), g2) := by rw [hfix, ← hr2]
  exact ⟨⟨pv.present_s, pv.present_x, pv.present_y, pv.present_h, g2, len1⟩, L,
    rfl, by simp, rfl, rfl, rfl, rfl, rfl, rfl, hlen1, hfix'⟩

theorem PlanView.adjustUpTo_zero (pv : PlanView) :
    PlanView.adjustUpTo pv 0 = (pv, none) := rfl

theorem PlanView.adjustUpTo_succ (pv : PlanView) (n : ℕ) :
    PlanView.adjustUpTo pv (n + 1) =
      match PlanView.adjustUpTo pv n with
      | (q, some e) => (q, some e)
      | (q, none) => PlanView.adjustStep q n := rfl

/-- The loop body never removes adjusted geometries, never changes the
override list, and preserves the raw-list length, error or not. -/
theorem PlanView.adjustCore_mono (pv : PlanView) (i : ℕ) :
    ∃ t, (PlanView.adjustCore pv i).1.adjusted_geometries =
        pv.adjusted_geometries ++ t ∧
      (PlanView.adjustCore pv i).1.overridden_headings = pv.overridden_headings ∧
      (PlanView.adjustCore pv i).1.raw_geometries.length =
        pv.raw_geometries.length := by
  unfold PlanView.adjustCore
  split
  · exact ⟨[], by simp, rfl, rfl⟩
  split
  · exact ⟨[], by simp, rfl, rfl⟩
  split
  · exact ⟨[], by simp, rfl, by simp⟩
  split
  · exact ⟨[], by simp, rfl, by simp⟩
  · exact ⟨_, rfl, rfl, by simp⟩

theorem PlanView.adjustStep_mono (pv : PlanView) (i : ℕ) :
    ∃ t, (PlanView.adjustStep pv i).1.adjusted_geometries =
        pv.adjusted_geometries ++ t ∧
      (PlanView.adjustStep pv i).1.overridden_headings = pv.overridden_headings ∧
      (PlanView.adjustStep pv i).1.raw_geometries.length =
        pv.raw_geometries.length := by
  unfold PlanView.adjustStep
  split
  · split
    · rename_i hd hidx
      obtain ⟨t, h1, h2, h3⟩ := PlanView.adjustCore_mono { pv with present_h := hd } i
      exact ⟨t, h1, h2, h3⟩
    · exact ⟨[], by simp, rfl, rfl⟩
  · exact PlanView.adjustCore_mono pv i

theorem PlanView.adjustUpTo_mono (pv : PlanView) (n : ℕ) :
    ∃ t, (PlanView.adjustUpTo pv n).1.adjusted_geometries =
        pv.adjusted_geometries ++ t ∧
      (PlanView.adjustUpTo pv n).1.overridden_headings = pv.overridden_headings ∧
      (PlanView.adjustUpTo pv n).1.raw_geometries.length =
        pv.raw_geometries.length := by
  induction n with
  | zero =>
    refine ⟨[], ?_, ?_, ?_⟩ <;> simp [PlanView.adjustUpTo_zero]
  | succ n ih =>
    obtain ⟨t, h1, h2, h3⟩ := ih
    rcases hrec : PlanView.adjustUpTo pv n with ⟨q0, e0⟩
    rw [hrec] at h1 h2 h3
    have h1' : q0.adjusted_geometries = pv.adjusted_geometries ++ t := h1
    have h2' : q0.overridden_headings = pv.overridden_headings := h2
    have h3' : q0.raw_geometries.length = pv.raw_geometries.length := h3
    rw [PlanView.adjustUpTo_succ, hrec]
    cases e0 with
    | some err => exact ⟨t, h1', h2', h3'⟩
    | none =>
      show ∃ u, (PlanView.adjustStep q0 n).1.adjusted_geometries =
          pv.adjusted_geometries ++ u ∧ _ ∧ _
      obtain ⟨u, s1, s2, s3⟩ := PlanView.adjustStep_mono q0 n
      refine ⟨t ++ u, ?_, ?_, ?_⟩
      · rw [s1, h1', List.append_assoc]
      · rw [s2, h2']
      · rw [s3, h3']

/-- Invariant of a successful run of the first `n` loop iterations: the
override list and raw-list length are preserved, exactly `n` geometries are
appended, they chain in arc length from the initial `present_s`, and (when
no overrides are recorded) they chain in pose from the initial present pose. -/
theorem PlanView.adjustUpTo_ok {pv q : PlanView} {n : ℕ}
    (h : PlanView.adjustUpTo pv n = (q, none)) :
    q.overridden_headings = pv.overridden_headings ∧
    q.raw_geometries.length = pv.raw_geometries.length ∧
    ∃ t, q.adjusted_geometries = pv.adjusted_geometries ++ t ∧ t.length = n ∧
      sChain pv.present_s t q.present_s ∧
      (pv.overridden_headings = [] →
        poseChain pv.present_x pv.present_y pv.present_h t
          (q.present_x, q.present_y, q.present_h)) := by
  induction n generalizing q with
  | zero =>
    rw [PlanView.adjustUpTo_zero, Prod.mk.injEq] at h
    obtain ⟨hq, -⟩ := h
    subst hq
    refine ⟨rfl, rfl, [], by simp, rfl, ?_, fun _ => rfl⟩
    show pv.present_s = pv.present_s
    rfl
  | succ n ih =>
    rw [PlanView.adjustUpTo_succ] at h
    rcases hrec : PlanView.adjustUpTo pv n with ⟨q0, e0⟩
    rw [hrec] at h
    cases e0 with
    | some err => simp at h
    | none =>
      have hstep : PlanView.adjustStep q0 n = (q, none) := h
      obtain ⟨hov0, hraw0, t, ht, htlen, hs, hp⟩ := ih hrec
      unfold PlanView.adjustStep at hstep
      by_cases hcase : 0 < q0.overridden_headings.length
      · rw [if_pos hcase] at hstep
        cases hidx : q0.overridden_headings[n]? with
        | none => rw [hidx] at hstep; simp at hstep
        | some hd =>
          rw [hidx] at hstep
          have hcore : PlanView.adjustCore { q0 with present_h := hd } n = (q, none) := hstep
          obtain ⟨g, L, c_ov, c_raw, c_s, c_adj, g_s, g_x, g_y, g_h, g_len, g_eval⟩ :=
            PlanView.adjustCore_ok hcore
          refine ⟨?_, ?_, t ++ [g], ?_, ?_, ?_, ?_⟩
          · rw [c_ov]
            exact hov0
          · rw [c_raw]
            exact hraw0
          · rw [c_adj]
            show q0.adjusted_geometries ++ [g] = _
            rw [ht, List.append_assoc]
          · simp [htlen]
          · rw [c_s]
            exact sChain_append hs g_s g_len
          · intro hemp
            exfalso
            rw [hov0, hemp] at hcase
            simp at hcase
      · rw [if_neg hcase] at hstep
        have hcore : PlanView.adjustCore q0 n = (q, none) := hstep
        obtain ⟨g, L, c_ov, c_raw, c_s, c_adj, g_s, g_x, g_y, g_h, g_len, g_eval⟩ :=
          PlanView.adjustCore_ok hcore
        refine ⟨?_, ?_, t ++ [g], ?_, ?_, ?_, ?_⟩
        · rw [c_ov]
          exact hov0
        · rw [c_raw]
          exact hraw0
        · rw [c_adj, ht, List.append_assoc]
        · simp [htlen]
        · rw [c_s]
          exact sChain_append hs g_s g_len
        · intro hemp
          exact poseChain_append (hp hemp) g_x g_y g_h g_eval

/-- Once an iteration has failed, all longer runs return the same state and
error (the loop stops at the first exception). -/
theorem PlanView.adjustUpTo_error_stable {pv q : PlanView} {e : PyErr} {m : ℕ}
    (h : PlanView.adjustUpTo pv m = (q, some e)) :
    ∀ n, m ≤ n → PlanView.adjustUpTo pv n = (q, some e) := by
  intro n
  induction n with
  | zero =>
    intro hmn
    have hm : m = 0 := Nat.le_zero.mp hmn
    subst hm
    exact h
  | succ n ih =>
    intro hmn
    by_cases hm : m = n + 1
    · subst hm
      exact h
    · have hle : m ≤ n := Nat.lt_succ_iff.mp (lt_of_le_of_ne hmn hm)
      rw [PlanView.adjustUpTo_succ, ih hle]

/-- The override lookup raises `IndexError` before anything else happens when
the override list is non-empty but has no entry at index `m`. -/
theorem PlanView.adjustStep_index_error {q : PlanView} {m : ℕ}
    (hov : 0 < q.overridden_headings.length)
    (hidx : q.overridden_headings[m]? = none) :
    PlanView.adjustStep q m = (q, some .indexError) := by
  unfold PlanView.adjustStep
  rw [if_pos hov, hidx]

theorem sChain_pairs {s sfin : ℝ} {t : List Geometry} (h : sChain s t sfin) :
    ∀ i, i + 1 < t.length →
      (t.getD i default).length ≠ none ∧
      (t.getD i default).s + (t.getD i default).length.getD 0 =
        (t.getD (i + 1) default).s := by
  induction t generalizing s with
  | nil =>
    intro i hi
    simp at hi
  | cons g t ih =>
    obtain ⟨hgs, L, hgl, hrest⟩ := h
    intro i hi
    cases i with
    | zero =>
      cases t with
      | nil => simp at hi
      | cons g2 t2 =>
        obtain ⟨hg2s, -⟩ := hrest
        refine ⟨by simp [hgl], ?_⟩
        simp only [List.getD_cons_zero, List.getD_cons_succ]
        rw [hgs, hgl, hg2s]
        simp
    | succ j =>
      have hj : j + 1 < t.length := by simpa using hi
      simpa using ih hrest j hj

theorem sChain_total {s sfin : ℝ} {t : List Geometry} (h : sChain s t sfin) :
    sfin = s + (t.map fun g => g.length.getD 0).sum := by
  induction t generalizing s with
  | nil => simpa [sChain] using h
  | cons g t ih =>
    obtain ⟨-, L, hgl, hrest⟩ := h
    rw [ih hrest]
    simp [hgl]
    ring

theorem poseChain_pairs {x y hd : ℝ} {fin : ℝ × ℝ × ℝ} {t : List Geometry}
    (h : poseChain x y hd t fin) :
    ∀ i, i + 1 < t.length →
      ∃ nx ny nh L,
        Geometry.get_end_data (t.getD i default) =
          .ok ((nx, ny, nh, some L), (t.getD i default).geom_type) ∧
        (t.getD (i + 1) default).x = nx ∧ (t.getD (i + 1) default).y = ny ∧
        (t.getD (i + 1) default).heading = nh := by
  induction t generalizing x y hd with
  | nil =>
    intro i hi
    simp at hi
  | cons g t ih =>
    obtain ⟨hgx, hgy, hgh, nx, ny, nh, L, hev, hrest⟩ := h
    intro i hi
    cases i with
    | zero =>
      cases t with
      | nil => simp at hi
      | cons g2 t2 =>
        obtain ⟨hg2x, hg2y, hg2h, -⟩ := hrest
        exact ⟨nx, ny, nh, L, by simpa using hev, by simpa using hg2x,
          by simpa using hg2y, by simpa using hg2h⟩
    | succ j =>
      have hj : j + 1 < t.length := by simpa using hi
      simpa using ih hrest j hj

theorem atan2_of_pos_x {y x : ℝ} (hx : 0 < x) : atan2 y x = Real.arctan (y / x) := by
  unfold atan2
  have hre : (⟨x, y⟩ : ℂ).re = x := rfl
  have him : (⟨x, y⟩ : ℂ).im = y := rfl
  rw [Complex.arg, hre, him, if_pos hx.le, Real.arctan_eq_arcsin]
  have habs : Complex.abs ⟨x, y⟩ = Real.sqrt (x ^ 2 + y ^ 2) := by
    rw [Complex.abs_apply, Complex.normSq_mk]
    norm_num [pow_two]
  rw [habs]
  have hx' : x ≠ 0 := ne_of_gt hx
  have hsum : (0:ℝ) < x ^ 2 + y ^ 2 := by positivity
  have hs : Real.sqrt (x ^ 2 + y ^ 2) ≠ 0 := by positivity
  have h1 : Real.sqrt (1 + (y / x) ^ 2) = Real.sqrt (x ^ 2 + y ^ 2) / x := by
    have h2 : 1 + (y / x) ^ 2 = (x ^ 2 + y ^ 2) / x ^ 2 := by
      field_simp
    rw [h2, Real.sqrt_div hsum.le, Real.sqrt_sq hx.le]
  rw [h1]
  congr 1
  field_simp

/-- C6: segment construction raises exactly when an Arc is given curvature 0,
or an Arc is given neither or both of length and angle, or a ParamPoly3 with
prange arcLength is given no length; the errors occur in `__init__` itself
(construction, not evaluation), and no other constructor input raises:
Line and Spiral construction always succeed. -/
theorem C6_construction_errors :
    (∀ (k : ℝ) (l a : Option ℝ),
      (∃ e, Arc.init k l a = .error e) ↔
        k = 0 ∨ (l = none ∧ a = none) ∨ (l ≠ none ∧ a ≠ none)) ∧
    (∀ (au bu cu du av bv cv dv : ℝ) (pr : PRange) (len : Option ℝ),
      (∃ e, ParamPoly3.init au bu cu du av bv cv dv pr len = .error e) ↔
        pr = .arcLength ∧ len = none) ∧
    (∀ L : ℝ, Line.init L = .ok (.line L)) ∧
    (∀ k1 k2 L : ℝ, Spiral.init k1 k2 L = .ok (.spiral k1 k2 L)) := by
  refine ⟨?_, ?_, fun L => rfl, fun k1 k2 L => rfl⟩
  · intro k l a
    unfold Arc.init
    by_cases h1 : l = none ∧ a = none
    · simp [h1]
    · rw [if_neg h1]
      by_cases h2 : l ≠ none ∧ a ≠ none
      · simp [h2, h1]
      · rw [if_neg h2]
        by_cases h3 : k = 0
        · simp [h3]
        · simp [h3, h1, h2]
  · intro au bu cu du av bv cv dv pr len
    unfold ParamPoly3.init
    by_cases h1 : pr = .arcLength ∧ len = none
    · simp [h1]
    · simp [h1]

/-- C9: a falsy heading override (`None` or `0.0`) is silently dropped by
`add_geometry`; a caller passing `0.0` for every segment ends with an empty
override list, the same PlanView state as passing no override at all, and
hence identical finalization behavior. -/
theorem C9_falsy_override_dropped :
    (∀ (pv : PlanView) (g : GeomT),
      (PlanView.add_geometry pv g none).overridden_headings =
        pv.overridden_headings) ∧
    (∀ (pv : PlanView) (g : GeomT),
      (PlanView.add_geometry pv g (some 0)).overridden_headings =
        pv.overridden_headings) ∧
    (∀ gs : List GeomT,
      gs.foldl (fun q g => PlanView.add_geometry q g (some 0)) PlanView.init =
        gs.foldl (fun q g => PlanView.add_geometry q g none) PlanView.init ∧
      (gs.foldl (fun q g => PlanView.add_geometry q g (some 0))
          PlanView.init).overridden_headings = [] ∧
      PlanView.adjust_geometires
          (gs.foldl (fun q g => PlanView.add_geometry q g (some 0)) PlanView.init) =
        PlanView.adjust_geometires
          (gs.foldl (fun q g => PlanView.add_geometry q g none) PlanView.init)) := by
  have hone : ∀ (pv : PlanView) (g : GeomT),
      PlanView.add_geometry pv g (some 0) = PlanView.add_geometry pv g none := by
    intro pv g
    unfold PlanView.add_geometry
    norm_num [truthyO]
  have hfun : (fun (q : PlanView) (g : GeomT) => PlanView.add_geometry q g (some 0)) =
      fun q g => PlanView.add_geometry q g none := by
    funext q g
    exact hone q g
  have hov : ∀ (gs : List GeomT) (pv : PlanView),
      (gs.foldl (fun q g => PlanView.add_geometry q g none) pv).overridden_headings =
        pv.overridden_headings := by
    intro gs
    induction gs with
    | nil => intro pv; rfl
    | cons g gs ih =>
      intro pv
      rw [List.foldl_cons, ih]
      unfold PlanView.add_geometry
      norm_num [truthyO]
  refine ⟨fun pv g => by unfold PlanView.add_geometry; norm_num [truthyO],
          fun pv g => by unfold PlanView.add_geometry; norm_num [truthyO],
          fun gs => ⟨by rw [hfun], ?_, by rw [hfun]⟩⟩
  rw [hfun, hov]
  rfl

theorem Spiral.eval_of_ne {len : ℝ} (k1 k2 x y h : ℝ) (hL : len ≠ 0) :
    Spiral.get_end_data k1 k2 len x y h =
      .ok (((EulerSpiral.calc (EulerSpiral.createFromLengthAndCurvature len k1 k2)
              len x y k1 h).1,
            (EulerSpiral.calc (EulerSpiral.createFromLengthAndCurvature len k1 k2)
              len x y k1 h).2.1,
            (EulerSpiral.calc (EulerSpiral.createFromLengthAndCurvature len k1 k2)
              len x y k1 h).2.2,
            some len), .spiral k1 k2 len) := by
  simp only [Spiral.get_end_data, if_neg hL]

/-- C3 counterexample: evaluating the angle-specified Arc `Arc(curvature=1,
angle=-1)` from the pose `(0,0,0)` mutates the spec (its `length` field is
written) and a second evaluation of the same (mutated) spec object returns a
different end heading, so evaluation is neither field-preserving nor
repeatable. -/
theorem C3_counterexample :
    ∃ r1 g1 r2 g2,
      GeomT.get_end_data (.arc 1 none (some (-1))) 0 0 0 = .ok (r1, g1) ∧
      GeomT.get_end_data g1 0 0 0 = .ok (r2, g2) ∧
      g1 ≠ .arc 1 none (some (-1)) ∧
      r1.2.2.1 ≠ r2.2.2.1 := by
  have heff1 : Arc.effAngle 1 none (some (-1)) = some (-1) := by
    simp [Arc.effAngle]
  have h1 := Arc.eval_of_eff (k := 1) (l := none) (a := some (-1)) 0 0 0 heff1
  have hif1 : (if (-1:ℝ) ≠ 0 then some |1 / |(1:ℝ)| * (-1)| else (none : Option ℝ)) =
      some 1 := by norm_num
  rw [hif1] at h1
  have heff2 : Arc.effAngle 1 (some 1) (some (-1)) = some 1 := by
    rw [Arc.effAngle_truthy one_ne_zero]
    norm_num
  have h2 := Arc.eval_of_eff (k := 1) (l := some 1) (a := some (-1)) 0 0 0 heff2
  have hif2 : (if (1:ℝ) ≠ 0 then some |1 / |(1:ℝ)| * 1| else (some (1:ℝ))) = some 1 := by
    norm_num
  rw [hif2] at h2
  refine ⟨_, _, _, _, h1, h2, by simp, by norm_num⟩

/-- C3 corrected: Line, Spiral (with nonzero length) and arcLength-mode
ParamPoly3 evaluation leave the segment state unchanged (hence repeated
evaluation gives identical results); normalized ParamPoly3 evaluation writes
the computed length back into the state but the re-evaluation returns the
same numeric result; Arc evaluation writes the derived length into the
state (and, as the counterexample shows, an angle-specified Arc whose angle
sign opposes its curvature returns a different end pose on re-evaluation). -/
theorem C3_amended (x y h : ℝ) :
    (∀ L : ℝ, GeomT.get_end_data (.line L) x y h =
      .ok ((L * Real.cos h + x, L * Real.sin h + y, h, some L), .line L)) ∧
    (∀ k1 k2 Ls : ℝ, Ls ≠ 0 →
      ∃ r, GeomT.get_end_data (.spiral k1 k2 Ls) x y h = .ok (r, .spiral k1 k2 Ls)) ∧
    (∀ au bu cu du av bv cv dv Lp : ℝ,
      ∃ r, GeomT.get_end_data
          (.parampoly3 au bu cu du av bv cv dv .arcLength (some Lp)) x y h =
        .ok (r, .parampoly3 au bu cu du av bv cv dv .arcLength (some Lp))) ∧
    (∀ (au bu cu du av bv cv dv : ℝ) (len : Option ℝ), ∃ r L2,
      GeomT.get_end_data (.parampoly3 au bu cu du av bv cv dv .normalized len) x y h =
        .ok (r, .parampoly3 au bu cu du av bv cv dv .normalized (some L2)) ∧
      GeomT.get_end_data
          (.parampoly3 au bu cu du av bv cv dv .normalized (some L2)) x y h =
        .ok (r, .parampoly3 au bu cu du av bv cv dv .normalized (some L2))) ∧
    (∀ k A : ℝ, A ≠ 0 → ∃ r L2,
      GeomT.get_end_data (.arc k none (some A)) x y h =
        .ok (r, .arc k (some L2) (some A))) := by
  refine ⟨fun L => rfl, ?_, ?_, ?_, ?_⟩
  · intro k1 k2 Ls hLs
    exact ⟨_, by rw [GeomT.eval_spiral, Spiral.eval_of_ne k1 k2 x y h hLs]⟩
  · intro au bu cu du av bv cv dv Lp
    exact ⟨_, rfl⟩
  · intro au bu cu du av bv cv dv len
    exact ⟨_, quadVal (ParamPoly3.integrand bu cu du bv cv dv) 0 1, rfl, rfl⟩
  · intro k A hA
    have heff : Arc.effAngle k none (some A) = some A := by
      simp [Arc.effAngle]
    refine ⟨(Real.cos (A + Arc.phi_0 k h) * (1 / |k|) + (Arc.center k x y h).1,
             Real.sin (A + Arc.phi_0 k h) * (1 / |k|) + (Arc.center k x y h).2,
             h + A, some |1 / |k| * A|), |1 / |k| * A|, ?_⟩
    rw [GeomT.eval_arc, Arc.eval_of_eff x y h heff, if_pos hA]

/-- C3 witness: the amended claim evaluated at start pose `(0,0,0)` with
concrete segments. -/
theorem C3_amended_witness :
    GeomT.get_end_data (.line 5) 0 0 0 =
      .ok ((5 * Real.cos 0 + 0, 5 * Real.sin 0 + 0, 0, some 5), .line 5) ∧
    (∃ r, GeomT.get_end_data (.spiral 1 2 3) 0 0 0 = .ok (r, .spiral 1 2 3)) ∧
    (∃ r L2, GeomT.get_end_data (.arc 2 none (some 7)) 0 0 0 =
      .ok (r, .arc 2 (some L2) (some 7))) :=
  ⟨(C3_amended 0 0 0).1 5,
   (C3_amended 0 0 0).2.1 1 2 3 (by norm_num),
   (C3_amended 0 0 0).2.2.2.2 2 7 (by norm_num)⟩

/-- Rotation of the point `(px, py)` about the center `(cx, cy)` by the angle
`θ` (the spec's description of how the Arc end position arises). -/
def rotAbout (cx cy θ px py : ℝ) : ℝ × ℝ :=
  (cx + Real.cos θ * (px - cx) - Real.sin θ * (py - cy),
   cy + Real.sin θ * (px - cx) + Real.cos θ * (py - cy))

/-- C2 counterexample: for the negative-curvature arc `Arc(curvature=-1)`
started at pose `(0,0,0)`, the circle center computed by the code is
`(0,-1)` — on the heading−90° side (the right) — not at heading+90° (the
left, `(0,1)`) as the claim states. -/
theorem C2_counterexample :
    Arc.center (-1) 0 0 0 = (0, -1) ∧
    Arc.center (-1) 0 0 0 ≠
      (0 + Real.cos (0 + Real.pi / 2) * (1 / |(-1:ℝ)|),
       0 + Real.sin (0 + Real.pi / 2) * (1 / |(-1:ℝ)|)) := by
  have hphi : Arc.phi_0 (-1) 0 = 0 + Real.pi / 2 := by
    unfold Arc.phi_0
    rw [if_pos (by norm_num : (-1:ℝ) < 0)]
  have hc : Arc.center (-1) 0 0 0 = (0, -1) := by
    unfold Arc.center
    rw [hphi]
    norm_num [Real.cos_pi_div_two, Real.sin_pi_div_two]
  refine ⟨hc, ?_⟩
  rw [hc]
  norm_num [Real.cos_pi_div_two, Real.sin_pi_div_two, Prod.ext_iff]

/-- C2 corrected: for an Arc with nonzero curvature, `phi_0` (the direction
from the circle center to the start point) is heading+90° when the curvature
is negative — so the center itself lies at heading−90° from the start, to the
right — and heading−90° when the curvature is positive (center at
heading+90°, to the left); in both the length- and angle-specified forms the
end heading is the start heading plus the sweep angle, and the end position
is the start point rotated about the center by the sweep angle. -/
theorem C2_amended (k L A x y h : ℝ) (hk : k ≠ 0) (hL : L ≠ 0) (hA : A ≠ 0) :
    (k < 0 → Arc.phi_0 k h = h + Real.pi / 2 ∧
      Arc.center k x y h =
        (x + Real.cos (h - Real.pi / 2) * (1 / |k|),
         y + Real.sin (h - Real.pi / 2) * (1 / |k|))) ∧
    (0 < k → Arc.phi_0 k h = h - Real.pi / 2 ∧
      Arc.center k x y h =
        (x + Real.cos (h + Real.pi / 2) * (1 / |k|),
         y + Real.sin (h + Real.pi / 2) * (1 / |k|))) ∧
    GeomT.get_end_data (.arc k (some L) none) x y h =
      .ok (((rotAbout (Arc.center k x y h).1 (Arc.center k x y h).2 (L * k) x y).1,
            (rotAbout (Arc.center k x y h).1 (Arc.center k x y h).2 (L * k) x y).2,
            h + L * k, some |1 / |k| * (L * k)|),
           .arc k (some |1 / |k| * (L * k)|) (some (L * k))) ∧
    GeomT.get_end_data (.arc k none (some A)) x y h =
      .ok (((rotAbout (Arc.center k x y h).1 (Arc.center k x y h).2 A x y).1,
            (rotAbout (Arc.center k x y h).1 (Arc.center k x y h).2 A x y).2,
            h + A, some |1 / |k| * A|),
           .arc k (some |1 / |k| * A|) (some A)) := by
  have hrot : ∀ B : ℝ,
      (rotAbout (Arc.center k x y h).1 (Arc.center k x y h).2 B x y).1 =
        Real.cos (B + Arc.phi_0 k h) * (1 / |k|) + (Arc.center k x y h).1 ∧
      (rotAbout (Arc.center k x y h).1 (Arc.center k x y h).2 B x y).2 =
        Real.sin (B + Arc.phi_0 k h) * (1 / |k|) + (Arc.center k x y h).2 := by
    intro B
    unfold rotAbout Arc.center
    constructor
    · simp only [Real.cos_add]
      ring
    · simp only [Real.sin_add]
      ring
  refine ⟨?_, ?_, ?_, ?_⟩
  · intro hneg
    have hphi : Arc.phi_0 k h = h + Real.pi / 2 := by
      unfold Arc.phi_0
      rw [if_pos hneg]
    refine ⟨hphi, ?_⟩
    unfold Arc.center
    rw [hphi, Prod.ext_iff]
    constructor
    · simp only [Real.cos_add, Real.cos_sub, Real.cos_pi_div_two, Real.sin_pi_div_two]
      ring
    · simp only [Real.sin_add, Real.sin_sub, Real.cos_pi_div_two, Real.sin_pi_div_two]
      ring
  · intro hpos
    have hphi : Arc.phi_0 k h = h - Real.pi / 2 := by
      unfold Arc.phi_0
      rw [if_neg (not_lt.mpr hpos.le)]
    refine ⟨hphi, ?_⟩
    unfold Arc.center
    rw [hphi, Prod.ext_iff]
    constructor
    · simp only [Real.cos_add, Real.cos_sub, Real.cos_pi_div_two, Real.sin_pi_div_two]
      ring
    · simp only [Real.sin_add, Real.sin_sub, Real.cos_pi_div_two, Real.sin_pi_div_two]
      ring
  · have heff : Arc.effAngle k (some L) none = some (L * k) := Arc.effAngle_truthy hL none
    have hLk : L * k ≠ 0 := mul_ne_zero hL hk
    rw [GeomT.eval_arc, Arc.eval_of_eff x y h heff, if_pos hLk,
      (hrot (L * k)).1, (hrot (L * k)).2]
  · have heff : Arc.effAngle k none (some A) = some A := by
      simp [Arc.effAngle]
    rw [GeomT.eval_arc, Arc.eval_of_eff x y h heff, if_pos hA,
      (hrot A).1, (hrot A).2]

/-- C2 witness: the corrected claim evaluated at curvature −1, length 1,
angle 1, start pose `(0,0,0)`. -/
theorem C2_amended_witness :
    ((-1:ℝ) ≠ 0 ∧ (1:ℝ) ≠ 0) ∧
    (((-1:ℝ) < 0 → Arc.phi_0 (-1) 0 = 0 + Real.pi / 2 ∧
      Arc.center (-1) 0 0 0 =
        (0 + Real.cos (0 - Real.pi / 2) * (1 / |(-1:ℝ)|),
         0 + Real.sin (0 - Real.pi / 2) * (1 / |(-1:ℝ)|))) ∧
    ((0:ℝ) < -1 → Arc.phi_0 (-1) 0 = 0 - Real.pi / 2 ∧
      Arc.center (-1) 0 0 0 =
        (0 + Real.cos (0 + Real.pi / 2) * (1 / |(-1:ℝ)|),
         0 + Real.sin (0 + Real.pi / 2) * (1 / |(-1:ℝ)|))) ∧
    GeomT.get_end_data (.arc (-1) (some 1) none) 0 0 0 =
      .ok (((rotAbout (Arc.center (-1) 0 0 0).1 (Arc.center (-1) 0 0 0).2
              (1 * -1) 0 0).1,
            (rotAbout (Arc.center (-1) 0 0 0).1 (Arc.center (-1) 0 0 0).2
              (1 * -1) 0 0).2,
            0 + 1 * -1, some |1 / |(-1:ℝ)| * (1 * -1)|),
           .arc (-1) (some |1 / |(-1:ℝ)| * (1 * -1)|) (some (1 * -1))) ∧
    GeomT.get_end_data (.arc (-1) none (some 1)) 0 0 0 =
      .ok (((rotAbout (Arc.center (-1) 0 0 0).1 (Arc.center (-1) 0 0 0).2 1 0 0).1,
            (rotAbout (Arc.center (-1) 0 0 0).1 (Arc.center (-1) 0 0 0).2 1 0 0).2,
            0 + 1, some |1 / |(-1:ℝ)| * 1|),
           .arc (-1) (some |1 / |(-1:ℝ)| * 1|) (some 1))) :=
  ⟨⟨by norm_num, by norm_num⟩,
    C2_amended (-1) 1 1 0 0 0 (by norm_num) (by norm_num) (by norm_num)⟩

/-- C1 (code bug): for the normalized ParamPoly3 with `bu = 1`, `dv = 1` and
all other coefficients zero, evaluated from pose `(0,0,0)`, the code's end
heading is `atan2 1 1 = π/4` — it omits the derivative factors and uses
`bv + cv·p + dv·p²` and `bu + cu·p + du·p²` — whereas the claimed formula
`atan2 (v'(1), u'(1))` with `v' = bv + 2cv·p + 3dv·p²`,
`u' = bu + 2cu·p + 3du·p²` gives `atan2 3 1 = arctan 3 ≠ π/4`. -/
theorem C1_code_eval :
    GeomT.get_end_data (.parampoly3 0 1 0 0 0 0 0 1 .normalized none) 0 0 0 =
      .ok ((1, 1, atan2 1 1, some (quadVal (ParamPoly3.integrand 1 0 0 0 0 1) 0 1)),
           .parampoly3 0 1 0 0 0 0 0 1 .normalized
             (some (quadVal (ParamPoly3.integrand 1 0 0 0 0 1) 0 1))) ∧
    atan2 1 1 = Real.pi / 4 ∧
    atan2 (0 + 2 * 0 * 1 + 3 * 1 * 1 ^ 2) (1 + 2 * 0 * 1 + 3 * 0 * 1 ^ 2) =
      Real.arctan 3 ∧
    Real.pi / 4 ≠ Real.arctan 3 := by
  refine ⟨?_, ?_, ?_, ?_⟩
  · rw [GeomT.eval_parampoly3]
    unfold ParamPoly3.get_end_data
    norm_num
  · rw [atan2_of_pos_x one_pos]
    norm_num [Real.arctan_one]
  · have h3 : atan2 (0 + 2 * 0 * 1 + 3 * 1 * 1 ^ 2) (1 + 2 * 0 * 1 + 3 * 0 * 1 ^ 2) =
        atan2 3 1 := by norm_num
    rw [h3, atan2_of_pos_x one_pos]
    norm_num
  · rw [← Real.arctan_one]
    intro heq
    have h13 := Real.arctan_injective heq
    norm_num at h13

/-- A concrete two-segment PlanView (two lines, no overrides) used to witness
the PlanView invariants. -/
def demoPV : PlanView := ⟨0, 0, 0, 0, [.line 1, .line 2], [], []⟩

def demoG0 : Geometry := ⟨0, 0, 0, 0, .line 1, some 1⟩

def demoG1 : Geometry := ⟨0 + 1, 1 * Real.cos 0 + 0, 1 * Real.sin 0 + 0, 0, .line 2, some 2⟩

def demoQ1 : PlanView :=
  ⟨1 * Real.cos 0 + 0, 1 * Real.sin 0 + 0, 0, 0 + 1, [.line 1, .line 2], [demoG0], []⟩

def demoQ : PlanView :=
  ⟨2 * Real.cos 0 + (1 * Real.cos 0 + 0), 2 * Real.sin 0 + (1 * Real.sin 0 + 0), 0,
   0 + 1 + 2, [.line 1, .line 2], [demoG0, demoG1], []⟩

theorem demo_step0 : PlanView.adjustStep demoPV 0 = (demoQ1, none) := by
  unfold PlanView.adjustStep PlanView.adjustCore demoPV demoQ1 demoG0
  simp [Line.get_end_data, List.set]

theorem demo_step1 : PlanView.adjustStep demoQ1 1 = (demoQ, none) := by
  unfold PlanView.adjustStep PlanView.adjustCore demoQ1 demoQ demoG1 demoG0
  simp [Line.get_end_data, List.set]

theorem demo_adjust : PlanView.adjust_geometires demoPV = (demoQ, none) := by
  have h1 : PlanView.adjustUpTo demoPV 1 = (demoQ1, none) := by
    rw [PlanView.adjustUpTo_succ, PlanView.adjustUpTo_zero]
    exact demo_step0
  have h2 : PlanView.adjustUpTo demoPV 2 = (demoQ, none) := by
    rw [PlanView.adjustUpTo_succ, h1]
    exact demo_step1
  exact h2

/-- A concrete PlanView with two line segments and the (truthy) heading
overrides 1 and 2. -/
def ovPV : PlanView := ⟨0, 0, 0, 0, [.line 1, .line 1], [], [1, 2]⟩

def ovG0 : Geometry := ⟨0, 0, 0, 1, .line 1, some 1⟩

def ovG1 : Geometry := ⟨0 + 1, 1 * Real.cos 1 + 0, 1 * Real.sin 1 + 0, 2, .line 1, some 1⟩

def ovQ1 : PlanView :=
  ⟨1 * Real.cos 1 + 0, 1 * Real.sin 1 + 0, 1, 0 + 1, [.line 1, .line 1], [ovG0], [1, 2]⟩

def ovQ : PlanView :=
  ⟨1 * Real.cos 2 + (1 * Real.cos 1 + 0), 1 * Real.sin 2 + (1 * Real.sin 1 + 0), 2,
   0 + 1 + 1, [.line 1, .line 1], [ovG0, ovG1], [1, 2]⟩

theorem ov_step0 : PlanView.adjustStep ovPV 0 = (ovQ1, none) := by
  unfold PlanView.adjustStep PlanView.adjustCore ovPV ovQ1 ovG0
  simp [Line.get_end_data, List.set]

theorem ov_step1 : PlanView.adjustStep ovQ1 1 = (ovQ, none) := by
  unfold PlanView.adjustStep PlanView.adjustCore ovQ1 ovQ ovG1 ovG0
  simp [Line.get_end_data, List.set]

theorem ov_adjust : PlanView.adjust_geometires ovPV = (ovQ, none) := by
  have h1 : PlanView.adjustUpTo ovPV 1 = (ovQ1, none) := by
    rw [PlanView.adjustUpTo_succ, PlanView.adjustUpTo_zero]
    exact ov_step0
  have h2 : PlanView.adjustUpTo ovPV 2 = (ovQ, none) := by
    rw [PlanView.adjustUpTo_succ, h1]
    exact ov_step1
  exact h2

/-- C4 counterexample: with heading overrides recorded (here 1 and 2 on two
line segments), finalization succeeds but the end heading of the first
derived geometry (1) differs from the start heading of the second (2), so the
claimed unconditional pose continuity fails. -/
theorem C4_counterexample :
    ∃ q : PlanView,
      PlanView.adjust_geometires ⟨0, 0, 0, 0, [.line 1, .line 1], [], [1, 2]⟩ =
        (q, none) ∧
      q.adjusted_geometries.length = 2 ∧
      ∃ nx ny nh L st,
        Geometry.get_end_data (q.adjusted_geometries.getD 0 default) =
          .ok ((nx, ny, nh, L), st) ∧
        nh ≠ (q.adjusted_geometries.getD 1 default).heading := by
  refine ⟨ovQ, ov_adjust, rfl, 1 * Real.cos 1 + 0, 1 * Real.sin 1 + 0, 1, some 1,
    .line 1, ?_, ?_⟩
  · rfl
  · show (1:ℝ) ≠ ovG1.heading
    unfold ovG1
    norm_num

/-- C4 corrected: after a PlanView with an empty heading-override sequence is
finalized once (from a state with no derived geometries), every consecutive
pair of derived geometries chains exactly: the end pose (x, y, heading)
returned by evaluating `geometries[i]` equals the stored start pose of
`geometries[i+1]`.  (With a non-empty override list the heading component
fails, as the counterexample shows.) -/
theorem C4_amended (pv q : PlanView)
    (hov : pv.overridden_headings = [])
    (hadj : pv.adjusted_geometries = [])
    (h : PlanView.adjust_geometires pv = (q, none)) :
    ∀ i, i + 1 < q.adjusted_geometries.length →
      ∃ nx ny nh L,
        Geometry.get_end_data (q.adjusted_geometries.getD i default) =
          .ok ((nx, ny, nh, some L),
               (q.adjusted_geometries.getD i default).geom_type) ∧
        (q.adjusted_geometries.getD (i + 1) default).x = nx ∧
        (q.adjusted_geometries.getD (i + 1) default).y = ny ∧
        (q.adjusted_geometries.getD (i + 1) default).heading = nh := by
  have h' : PlanView.adjustUpTo pv pv.raw_geometries.length = (q, none) := h
  obtain ⟨-, -, t, ht, -, -, hp⟩ := PlanView.adjustUpTo_ok h'
  have hqt : q.adjusted_geometries = t := by
    rw [ht, hadj, List.nil_append]
  rw [hqt]
  exact poseChain_pairs (hp hov)

/-- C4 witness: the corrected claim on the concrete two-line PlanView. -/
theorem C4_amended_witness :
    ∃ nx ny nh L,
      Geometry.get_end_data (demoQ.adjusted_geometries.getD 0 default) =
        .ok ((nx, ny, nh, some L),
             (demoQ.adjusted_geometries.getD 0 default).geom_type) ∧
      (demoQ.adjusted_geometries.getD 1 default).x = nx ∧
      (demoQ.adjusted_geometries.getD 1 default).y = ny ∧
      (demoQ.adjusted_geometries.getD 1 default).heading = nh :=
  C4_amended demoPV demoQ rfl rfl demo_adjust 0 (by norm_num [demoQ, demoG0, demoG1])

/-- C5: after one finalization from a fresh state (`present_s = 0`, no
derived geometries), consecutive derived geometries satisfy
`s[i] + length[i] = s[i+1]` (each stored length being a real number), and
`get_total_length` equals the sum of the stored geometry lengths. -/
theorem C5_arclength_monotonicity (pv q : PlanView)
    (hs0 : pv.present_s = 0)
    (hadj : pv.adjusted_geometries = [])
    (h : PlanView.adjust_geometires pv = (q, none)) :
    (∀ i, i + 1 < q.adjusted_geometries.length →
      (q.adjusted_geometries.getD i default).length ≠ none ∧
      (q.adjusted_geometries.getD i default).s +
        (q.adjusted_geometries.getD i default).length.getD 0 =
        (q.adjusted_geometries.getD (i + 1) default).s) ∧
    PlanView.get_total_length q =
      (q.adjusted_geometries.map fun g => g.length.getD 0).sum := by
  have h' : PlanView.adjustUpTo pv pv.raw_geometries.length = (q, none) := h
  obtain ⟨-, -, t, ht, -, hsch, -⟩ := PlanView.adjustUpTo_ok h'
  have hqt : q.adjusted_geometries = t := by
    rw [ht, hadj, List.nil_append]
  constructor
  · rw [hqt]
    exact sChain_pairs hsch
  · have htot := sChain_total hsch
    show q.present_s = _
    rw [hqt, htot, hs0, zero_add]

/-- C5 witness: the invariants on the concrete two-line PlanView. -/
theorem C5_witness :
    ((demoQ.adjusted_geometries.getD 0 default).length ≠ none ∧
      (demoQ.adjusted_geometries.getD 0 default).s +
        (demoQ.adjusted_geometries.getD 0 default).length.getD 0 =
        (demoQ.adjusted_geometries.getD 1 default).s) ∧
    PlanView.get_total_length demoQ =
      (demoQ.adjusted_geometries.map fun g => g.length.getD 0).sum :=
  ⟨(C5_arclength_monotonicity demoPV demoQ rfl rfl demo_adjust).1 0
      (by norm_num [demoQ, demoG0, demoG1]),
   (C5_arclength_monotonicity demoPV demoQ rfl rfl demo_adjust).2⟩

/-- C8: invoking `adjust_geometires` a second time does not reset the derived
sequence: the first batch (one Geometry per raw spec) stays as a prefix and
the second call appends a further batch, giving twice the raw count when it
succeeds. -/
theorem C8_refinalize_appends (pv q1 : PlanView)
    (hadj : pv.adjusted_geometries = [])
    (h1 : PlanView.adjust_geometires pv = (q1, none)) :
    q1.adjusted_geometries.length = pv.raw_geometries.length ∧
    ∃ q2 e2 t2,
      PlanView.adjust_geometires q1 = (q2, e2) ∧
      q2.adjusted_geometries = q1.adjusted_geometries ++ t2 ∧
      (e2 = none →
        q2.adjusted_geometries.length =
          pv.raw_geometries.length + pv.raw_geometries.length) := by
  have h1' : PlanView.adjustUpTo pv pv.raw_geometries.length = (q1, none) := h1
  obtain ⟨-, hraw1, t, ht, htlen, -, -⟩ := PlanView.adjustUpTo_ok h1'
  have hlen1 : q1.adjusted_geometries.length = pv.raw_geometries.length := by
    rw [ht, hadj, List.nil_append, htlen]
  refine ⟨hlen1, ?_⟩
  rcases h2 : PlanView.adjust_geometires q1 with ⟨q2, e2⟩
  have h2' : PlanView.adjustUpTo q1 q1.raw_geometries.length = (q2, e2) := h2
  obtain ⟨t2, hmono, -, -⟩ := PlanView.adjustUpTo_mono q1 q1.raw_geometries.length
  rw [h2'] at hmono
  have hmono' : q2.adjusted_geometries = q1.adjusted_geometries ++ t2 := hmono
  refine ⟨q2, e2, t2, rfl, hmono', ?_⟩
  intro he2
  subst he2
  obtain ⟨-, -, t2n, ht2, ht2len, -, -⟩ := PlanView.adjustUpTo_ok h2'
  rw [ht2, List.length_append, hlen1, ht2len, hraw1]

/-- C8 witness: re-finalizing the concrete two-line PlanView appends rather
than replaces. -/
theorem C8_witness :
    demoQ.adjusted_geometries.length = demoPV.raw_geometries.length ∧
    ∃ q2 e2 t2,
      PlanView.adjust_geometires demoQ = (q2, e2) ∧
      q2.adjusted_geometries = demoQ.adjusted_geometries ++ t2 ∧
      (e2 = none →
        q2.adjusted_geometries.length =
          demoPV.raw_geometries.length + demoPV.raw_geometries.length) :=
  C8_refinalize_appends demoPV demoQ rfl demo_adjust

/-- C10: when the override list is non-empty with `m` entries but there are
more than `m` raw geometries (and the first `m` iterations evaluate fine),
finalization stops with an `IndexError` raised by the override lookup at
index `m`, having appended exactly the geometries for segments `0..m-1`. -/
theorem C10_short_override_list (pv q : PlanView) (m : ℕ)
    (hadj : pv.adjusted_geometries = [])
    (hmlen : pv.overridden_headings.length = m)
    (hm0 : 0 < m)
    (hmn : m < pv.raw_geometries.length)
    (h : PlanView.adjustUpTo pv m = (q, none)) :
    PlanView.adjust_geometires pv = (q, some .indexError) ∧
    q.adjusted_geometries.length = m := by
  obtain ⟨hov, hraw, t, ht, htlen, -, -⟩ := PlanView.adjustUpTo_ok h
  have hlen : q.adjusted_geometries.length = m := by
    rw [ht, hadj, List.nil_append, htlen]
  have hov' : 0 < q.overridden_headings.length := by
    rw [hov, hmlen]
    exact hm0
  have hidx : q.overridden_headings[m]? = none := by
    rw [List.getElem?_eq_none]
    rw [hov, hmlen]
  have hstep := PlanView.adjustStep_index_error hov' hidx
  have hm1 : PlanView.adjustUpTo pv (m + 1) = (q, some .indexError) := by
    rw [PlanView.adjustUpTo_succ, h]
    exact hstep
  exact ⟨PlanView.adjustUpTo_error_stable hm1 pv.raw_geometries.length
    (Nat.succ_le_of_lt hmn), hlen⟩

def shortOvPV : PlanView := ⟨0, 0, 0, 0, [.line 1, .line 1], [], [5]⟩

def shortOvQ : PlanView :=
  ⟨1 * Real.cos 5 + 0, 1 * Real.sin 5 + 0, 5, 0 + 1, [.line 1, .line 1],
   [⟨0, 0, 0, 5, .line 1, some 1⟩], [5]⟩

theorem shortOv_step0 : PlanView.adjustStep shortOvPV 0 = (shortOvQ, none) := by
  unfold PlanView.adjustStep PlanView.adjustCore shortOvPV shortOvQ
  simp [Line.get_end_data, List.set]

theorem shortOv_upTo1 : PlanView.adjustUpTo shortOvPV 1 = (shortOvQ, none) := by
  rw [PlanView.adjustUpTo_succ, PlanView.adjustUpTo_zero]
  exact shortOv_step0

/-- C10 witness: the concrete PlanView with two lines and the single override
5 fails with IndexError after processing segment 0. -/
theorem C10_witness :
    PlanView.adjust_geometires shortOvPV = (shortOvQ, some .indexError) ∧
    shortOvQ.adjusted_geometries.length = 1 :=
  C10_short_override_list shortOvPV shortOvQ 1 rfl rfl (by norm_num)
    (by norm_num [shortOvPV]) shortOv_upTo1

theorem calc_gamma0_kappa0 (L x y h : ℝ) :
    EulerSpiral.calc 0 L x y 0 h = (L * Real.cos h + x, L * Real.sin h + y, h) := by
  simp only [EulerSpiral.calc]
  norm_num [Prod.mk.injEq, Complex.add_re, Complex.re_ofReal_mul, Complex.exp_ofReal_mul_I_re,
    Complex.add_im, Complex.im_ofReal_mul, Complex.exp_ofReal_mul_I_im]
  constructor
  · ring
  · ring

theorem calc_gamma0_arc (L x y k h : ℝ) (hk : k ≠ 0) :
    EulerSpiral.calc 0 L x y k h =
      (x + (Real.sin (k * L) * Real.cos h - (1 - Real.cos (k * L)) * Real.sin h) / k,
       y + (Real.sin (k * L) * Real.sin h + (1 - Real.cos (k * L)) * Real.cos h) / k,
       h + k * L) := by
  have h1 : (Complex.sin ((k:ℂ) * (L:ℂ))).re = Real.sin (k * L) := by
    rw [← Complex.ofReal_mul, Complex.sin_ofReal_re]
  have h2 : (Complex.sin ((k:ℂ) * (L:ℂ))).im = 0 := by
    rw [← Complex.ofReal_mul]
    exact Complex.sin_ofReal_im (k * L)
  have h3 : (Complex.cos ((k:ℂ) * (L:ℂ))).re = Real.cos (k * L) := by
    rw [← Complex.ofReal_mul, Complex.cos_ofReal_re]
  have h4 : (Complex.cos ((k:ℂ) * (L:ℂ))).im = 0 := by
    rw [← Complex.ofReal_mul]
    exact Complex.cos_ofReal_im (k * L)
  simp only [EulerSpiral.calc]
  norm_num [hk, Prod.mk.injEq, Complex.add_re, Complex.add_im, Complex.sub_re,
    Complex.sub_im, Complex.mul_re, Complex.mul_im, Complex.I_re, Complex.I_im,
    Complex.one_re, Complex.one_im, Complex.ofReal_re, Complex.ofReal_im,
    Complex.div_ofReal_re, Complex.div_ofReal_im, h1, h2, h3, h4,
    Complex.exp_ofReal_mul_I_re, Complex.exp_ofReal_mul_I_im]
  constructor
  · ring
  · constructor
    · ring
    · ring

/-- C7: a Spiral with both curvatures 0 and length L produces exactly the
Line end pose; a Spiral with equal nonzero curvatures k produces the Arc
(curvature k, length L) end pose within 1e-9 (in fact exactly, which the
proof establishes). -/
theorem C7_spiral_degeneracy (x y h k L : ℝ) (hL : 0 < L) :
    (GeomT.get_end_data (.spiral 0 0 L) x y h =
       .ok ((L * Real.cos h + x, L * Real.sin h + y, h, some L), .spiral 0 0 L) ∧
     GeomT.get_end_data (.line L) x y h =
       .ok ((L * Real.cos h + x, L * Real.sin h + y, h, some L), .line L)) ∧
    (k ≠ 0 →
      ∃ sx sy sh ax ay ah LS LA stS stA,
        GeomT.get_end_data (.spiral k k L) x y h = .ok ((sx, sy, sh, LS), stS) ∧
        GeomT.get_end_data (.arc k (some L) none) x y h = .ok ((ax, ay, ah, LA), stA) ∧
        |sx - ax| ≤ 1e-9 ∧ |sy - ay| ≤ 1e-9 ∧ |sh - ah| ≤ 1e-9) := by
  have hL' : L ≠ 0 := hL.ne'
  constructor
  · constructor
    · rw [GeomT.eval_spiral, Spiral.eval_of_ne 0 0 x y h hL']
      have hg : EulerSpiral.createFromLengthAndCurvature L 0 0 = 0 := by
        unfold EulerSpiral.createFromLengthAndCurvature
        ring
      rw [hg, calc_gamma0_kappa0]
    · rfl
  · intro hk
    have hg : EulerSpiral.createFromLengthAndCurvature L k k = 0 := by
      unfold EulerSpiral.createFromLengthAndCurvature
      ring
    have hspir : GeomT.get_end_data (.spiral k k L) x y h =
        .ok ((x + (Real.sin (k * L) * Real.cos h - (1 - Real.cos (k * L)) * Real.sin h) / k,
              y + (Real.sin (k * L) * Real.sin h + (1 - Real.cos (k * L)) * Real.cos h) / k,
              h + k * L, some L), .spiral k k L) := by
      rw [GeomT.eval_spiral, Spiral.eval_of_ne k k x y h hL', hg, calc_gamma0_arc L x y k h hk]
    have heff : Arc.effAngle k (some L) none = some (L * k) := Arc.effAngle_truthy hL' none
    have hLk : L * k ≠ 0 := mul_ne_zero hL' hk
    have harc : GeomT.get_end_data (.arc k (some L) none) x y h =
        .ok ((Real.cos (L * k + Arc.phi_0 k h) * (1 / |k|) + (Arc.center k x y h).1,
              Real.sin (L * k + Arc.phi_0 k h) * (1 / |k|) + (Arc.center k x y h).2,
              h + L * k, some |1 / |k| * (L * k)|),
             .arc k (some |1 / |k| * (L * k)|) (some (L * k))) := by
      rw [GeomT.eval_arc, Arc.eval_of_eff x y h heff, if_pos hLk]
    have hxeq : x + (Real.sin (k * L) * Real.cos h -
          (1 - Real.cos (k * L)) * Real.sin h) / k =
        Real.cos (L * k + Arc.phi_0 k h) * (1 / |k|) + (Arc.center k x y h).1 := by
      rcases hk.lt_or_lt with hneg | hpos
      · have hphi : Arc.phi_0 k h = h + Real.pi / 2 := by
          unfold Arc.phi_0
          rw [if_pos hneg]
        simp only [Arc.center, hphi, abs_of_neg hneg, mul_comm L k]
        simp only [Real.cos_add, Real.sin_add, Real.cos_pi_div_two, Real.sin_pi_div_two,
          div_neg]
        ring
      · have hphi : Arc.phi_0 k h = h - Real.pi / 2 := by
          unfold Arc.phi_0
          rw [if_neg (not_lt.mpr hpos.le)]
        simp only [Arc.center, hphi, abs_of_pos hpos, mul_comm L k]
        simp only [Real.cos_add, Real.sin_add, Real.cos_sub, Real.sin_sub,
          Real.cos_pi_div_two, Real.sin_pi_div_two]
        ring
    have hyeq : y + (Real.sin (k * L) * Real.sin h +
          (1 - Real.cos (k * L)) * Real.cos h) / k =
        Real.sin (L * k + Arc.phi_0 k h) * (1 / |k|) + (Arc.center k x y h).2 := by
      rcases hk.lt_or_lt with hneg | hpos
      · have hphi : Arc.phi_0 k h = h + Real.pi / 2 := by
          unfold Arc.phi_0
          rw [if_pos hneg]
        simp only [Arc.center, hphi, abs_of_neg hneg, mul_comm L k]
        simp only [Real.cos_add, Real.sin_add, Real.cos_pi_div_two, Real.sin_pi_div_two,
          div_neg]
        ring
      · have hphi : Arc.phi_0 k h = h - Real.pi / 2 := by
          unfold Arc.phi_0
          rw [if_neg (not_lt.mpr hpos.le)]
        simp only [Arc.center, hphi, abs_of_pos hpos, mul_comm L k]
        simp only [Real.cos_add, Real.sin_add, Real.cos_sub, Real.sin_sub,
          Real.cos_pi_div_two, Real.sin_pi_div_two]
        ring
    have hheq : h + k * L = h + L * k := by ring
    refine ⟨_, _, _, _, _, _, _, _, _, _, hspir, harc, ?_, ?_, ?_⟩
    · rw [hxeq, sub_self, abs_zero]
      norm_num
    · rw [hyeq, sub_self, abs_zero]
      norm_num
    · rw [hheq, sub_self, abs_zero]
      norm_num

/-- C7 witness: the degeneracy checks at start pose `(0,0,0)`, curvature 1,
length 1. -/
theorem C7_witness :
    (GeomT.get_end_data (.spiral 0 0 1) 0 0 0 =
       .ok ((1 * Real.cos 0 + 0, 1 * Real.sin 0 + 0, 0, some 1), .spiral 0 0 1) ∧
     GeomT.get_end_data (.line 1) 0 0 0 =
       .ok ((1 * Real.cos 0 + 0, 1 * Real.sin 0 + 0, 0, some 1), .line 1)) ∧
    ∃ sx sy sh ax ay ah LS LA stS stA,
      GeomT.get_end_data (.spiral 1 1 1) 0 0 0 = .ok ((sx, sy, sh, LS), stS) ∧
      GeomT.get_end_data (.arc 1 (some 1) none) 0 0 0 = .ok ((ax, ay, ah, LA), stA) ∧
      |sx - ax| ≤ 1e-9 ∧ |sy - ay| ≤ 1e-9 ∧ |sh - ah| ≤ 1e-9 :=
  ⟨(C7_spiral_degeneracy 0 0 0 1 1 one_pos).1,
   (C7_spiral_degeneracy 0 0 0 1 1 one_pos).2 one_ne_zero⟩

end
